import Mathlib

/-!
# Chess 39 core engine: a shallow embedding

This file embeds the Chess 39 rules engine (army generation under a
39-point budget, board setup, move validation, check and game-over
detection, and FEN-style serialization) into Lean, following the Python
source modules `pieces.py`, `army.py`, `board.py`, `game.py`, `fen.py`,
and proves or refutes the specified properties about it.

Modelling conventions:
* Python dicts are insertion-ordered association lists; `dget` models
  `d[k]` lookup (as an `Option`), `dset` models `d[k] = v`
  (replace-in-place or append), `pyGet` models `d.get(k)` on dicts whose
  values are themselves optional (absent key and stored `None` both read
  as `none`, exactly as in the source, which only ever tests truthiness).
* Python strings are Lean `String`s; colors are the strings the source
  uses (`"white"`, `"black"`, and the stray `"W"`/`"B"` written by
  `Board.place_army`).
* `PieceType` is a Python `enum.Enum` in which `KNIGHT = 3` and
  `BISHOP = 3`; Python therefore makes `BISHOP` an *alias* of `KNIGHT`
  (they are the same member).  The embedding mirrors this with five
  constructors and `BISHOP` defined as `KNIGHT`.
* Exceptions are modelled with `Except PyErr` exactly at the points the
  claims need them (`make_move`'s square parsing, `fen_to_board`'s
  indexing and `int()` calls); all other code is total.
-/

/-- Python exception kinds that the modelled code can raise. -/
inductive PyErr where
  | indexError
  | valueError
deriving DecidableEq, Repr

/-- Decidable equality of `Except` results, for concrete evaluation. -/
instance exceptDecEq {e a : Type} [DecidableEq e] [DecidableEq a] :
    DecidableEq (Except e a) := fun x y =>
  match x, y with
  | .error u, .error v =>
    match decEq u v with
    | isTrue h => isTrue (by rw [h])
    | isFalse h => isFalse (by intro hc; injection hc; exact h (by assumption))
  | .ok u, .ok v =>
    match decEq u v with
    | isTrue h => isTrue (by rw [h])
    | isFalse h => isFalse (by intro hc; injection hc; exact h (by assumption))
  | .error _, .ok _ => isFalse (fun hc => Except.noConfusion hc)
  | .ok _, .error _ => isFalse (fun hc => Except.noConfusion hc)

/-! ## pieces.py -/

/-- The `PieceType` enum from `pieces.py`.  Python collapses `BISHOP`
into `KNIGHT` because both are declared with value `3`, so the enum has
five distinct members. -/
inductive PieceType where
  | PAWN
  | KNIGHT
  | ROOK
  | QUEEN
  | KING
deriving DecidableEq, Repr

namespace PieceType

/-- `PieceType.BISHOP` is an alias of `PieceType.KNIGHT` in Python
(equal enum values), mirrored here by a definition. -/
def BISHOP : PieceType := KNIGHT

/-- The `.value` of each enum member (point values from the plan). -/
def value : PieceType → Nat
  | PAWN => 1
  | KNIGHT => 3
  | ROOK => 5
  | QUEEN => 9
  | KING => 0

/-- The `.name` of each enum member.  `BISHOP.name` is `"KNIGHT"`
because `BISHOP` is an alias. -/
def pname : PieceType → String
  | PAWN => "PAWN"
  | KNIGHT => "KNIGHT"
  | ROOK => "ROOK"
  | QUEEN => "QUEEN"
  | KING => "KING"

end PieceType

open PieceType

/-- `KNIGHT_MOVES` from `pieces.py`. -/
def KNIGHT_MOVES : List (Int × Int) :=
  [(2, 1), (2, -1), (-2, 1), (-2, -1), (1, 2), (1, -2), (-1, 2), (-1, -2)]

/-! ## Python dict primitives -/

/-- Lookup `d[k]` in a Python dict modelled as an association list,
returning `none` when the key is absent (the callers below only index
keys they know exist, or use `.get`). -/
def dget {α β : Type} [DecidableEq α] (d : List (α × β)) (k : α) : Option β :=
  (d.find? fun kv => kv.1 = k).map (·.2)

/-- Assignment `d[k] = v` on a Python dict: replace the value in place
when the key is present, append otherwise. -/
def dset {α β : Type} [DecidableEq α] (d : List (α × β)) (k : α) (v : β) :
    List (α × β) :=
  if d.any (fun kv => kv.1 = k) then
    d.map fun kv => if kv.1 = k then (k, v) else kv
  else
    d ++ [(k, v)]

/-- `d.get(k)` on a dict whose stored values are optional: an absent key
and a stored `None` both read as `none`, which is how the source
consumes every such lookup. -/
def pyGet {β : Type} (d : List (String × Option β)) (k : String) : Option β :=
  match (d.find? fun kv => kv.1 = k) with
  | some kv => kv.2
  | none => none

theorem find?_map_replace {β : Type} (d : List (String × Option β)) (k : String)
    (v : Option β) (hex : ∃ kv ∈ d, kv.1 = k) :
    ((d.map fun kv => if kv.1 = k then (k, v) else kv).find?
      fun kv => kv.1 = k) = some (k, v) := by
  induction d with
  | nil => simp at hex
  | cons hd tl ih =>
    by_cases hc : hd.1 = k
    · simp [List.find?, hc]
    · obtain ⟨kv, hmem, hkv⟩ := hex
      rcases List.mem_cons.1 hmem with h1 | h1
      · exact absurd (h1 ▸ hkv) hc
      · simp only [List.map_cons, if_neg hc, List.find?]
        rw [decide_eq_false hc]
        exact ih ⟨kv, h1, hkv⟩

theorem find?_map_replace_ne {β : Type} (d : List (String × Option β))
    (k k' : String) (v : Option β) (h : k' ≠ k) :
    ((d.map fun kv => if kv.1 = k then (k, v) else kv).find?
      fun kv => kv.1 = k') = (d.find? fun kv => kv.1 = k') := by
  induction d with
  | nil => rfl
  | cons hd tl ih =>
    by_cases hc : hd.1 = k
    · simp only [List.map_cons, if_pos hc, List.find?]
      have h1 : (decide ((k, v).1 = k')) = false := by
        simp only [decide_eq_false_iff_not]
        exact fun hh => h hh.symm
      have h2 : (decide (hd.1 = k')) = false := by
        simp only [decide_eq_false_iff_not]
        rw [hc]
        exact fun hh => h hh.symm
      rw [h1, h2]
      exact ih
    · simp only [List.map_cons, if_neg hc, List.find?]
      cases hdk : decide (hd.1 = k') with
      | true => rfl
      | false => exact ih

theorem pyGet_dset_self {β : Type} (d : List (String × Option β)) (k : String)
    (v : Option β) : pyGet (dset d k v) k = v := by
  unfold dset
  by_cases hany : (d.any fun kv => decide (kv.1 = k)) = true
  · rw [if_pos hany]
    rw [List.any_eq_true] at hany
    obtain ⟨kv, hmem, hkv⟩ := hany
    unfold pyGet
    rw [find?_map_replace d k v ⟨kv, hmem, of_decide_eq_true hkv⟩]
  · rw [if_neg hany]
    unfold pyGet
    rw [List.find?_append]
    have hnone : (d.find? fun kv => decide (kv.1 = k)) = none := by
      rw [List.find?_eq_none]
      intro kv hmem
      simp only [List.any_eq_true, not_exists, not_and] at hany
      exact hany kv hmem
    simp [hnone]

theorem pyGet_dset_ne {β : Type} (d : List (String × Option β)) (k k' : String)
    (v : Option β) (h : k' ≠ k) : pyGet (dset d k v) k' = pyGet d k' := by
  unfold dset
  by_cases hany : (d.any fun kv => decide (kv.1 = k)) = true
  · rw [if_pos hany]
    unfold pyGet
    rw [find?_map_replace_ne d k k' v h]
  · rw [if_neg hany]
    unfold pyGet
    rw [List.find?_append]
    cases hfind : (d.find? fun kv => decide (kv.1 = k')) with
    | some kv => simp
    | none =>
      have hkv : (decide ((k, v).1 = k')) = false :=
        decide_eq_false (fun hh => h hh.symm)
      simp [List.find?, hkv]

/-- Membership in `dset d k v`: every entry is an old entry or the new
binding. -/
theorem mem_dset {α β : Type} [DecidableEq α] {d : List (α × β)} {k : α}
    {v : β} {kv : α × β} (h : kv ∈ dset d k v) : kv ∈ d ∨ kv = (k, v) := by
  unfold dset at h
  split at h
  · obtain ⟨kv0, hmem, hkv0⟩ := List.mem_map.1 h
    by_cases hc : kv0.1 = k
    · simp [hc] at hkv0
      exact Or.inr hkv0.symm
    · simp [hc] at hkv0
      exact Or.inl (hkv0 ▸ hmem)
  · rcases List.mem_append.1 h with h1 | h1
    · exact Or.inl h1
    · simp at h1
      exact Or.inr h1

/-! ## Square notation (`Game._square_to_coords` / `Game._coords_to_square`) -/

/-- Total version of `_square_to_coords`: `(ord(s[0]) - ord('a'), int(s[1]) - 1)`.
Used on strings whose first two characters exist and whose second is a
digit; `squareToCoordsE` below models the exceptions Python raises
otherwise. -/
def squareToCoords (s : String) : Int × Int :=
  match s.data with
  | c0 :: c1 :: _ => ((c0.toNat : Int) - 97, ((c1.toNat : Int) - 48) - 1)
  | _ => (0, 0)

/-- Whether `_square_to_coords` would succeed on `s` (at least two
characters and a digit second character). -/
def squareParses (s : String) : Bool :=
  match s.data with
  | _ :: c1 :: _ => c1.isDigit
  | _ => false

/-- Exception-aware `_square_to_coords`: `s[0]` raises `IndexError` on
an empty string, `s[1]` raises `IndexError` on a one-character string,
and `int(s[1])` raises `ValueError` on a non-digit. -/
def squareToCoordsE (s : String) : Except PyErr (Int × Int) :=
  match s.data with
  | [] => .error .indexError
  | [_] => .error .indexError
  | c0 :: c1 :: _ =>
    if c1.isDigit then .ok ((c0.toNat : Int) - 97, ((c1.toNat : Int) - 48) - 1)
    else .error .valueError

theorem squareToCoordsE_ok_of_parses {s : String} (h : squareParses s = true) :
    squareToCoordsE s = .ok (squareToCoords s) := by
  unfold squareParses at h
  unfold squareToCoordsE squareToCoords
  match hs : s.data with
  | [] => rw [hs] at h; exact absurd h (by simp)
  | [c] => rw [hs] at h; exact absurd h (by simp)
  | c0 :: c1 :: rest =>
    rw [hs] at h
    simp only [] at h
    simp [h]

/-- `_coords_to_square`: `chr(col + ord('a')) + str(row + 1)`. -/
def coordsToSquare (col row : Int) : String :=
  String.singleton (Char.ofNat (col + 97).toNat) ++ toString (row + 1)

/-! ## Game state (`Game.__init__` fields) -/

/-- An occupant of a square: a `(PieceType, color-string)` pair exactly
as stored in `Board.grid`. -/
abbrev Occ := PieceType × String

/-- `Board.grid`: a dict from square-name strings to an occupant or
`None`. -/
abbrev Grid := List (String × Option Occ)

/-- One side's castling-rights dict `{'kingside': _, 'queenside': _}`. -/
structure CastlePair where
  kingside : Bool
  queenside : Bool
deriving DecidableEq, Repr

/-- `Game.castling_rights`: a dict keyed by `'white'` / `'black'`. -/
structure CastlingRights where
  white : CastlePair
  black : CastlePair
deriving DecidableEq, Repr

/-- Lookup `castling_rights[color]`.  The source indexes with a color
string that is always `'white'` or `'black'` on every path the claims
exercise (any other string would raise `KeyError`). -/
def rightsFor (cr : CastlingRights) (color : String) : CastlePair :=
  if color = "white" then cr.white else cr.black

/-- Update `castling_rights[color]`. -/
def setRights (cr : CastlingRights) (color : String) (p : CastlePair) :
    CastlingRights :=
  if color = "white" then { cr with white := p } else { cr with black := p }

/-- An entry of `Game.move_history` (the dict appended by `make_move`).
`from`/`to` are spelled `fromSq`/`toSq` because `from` is reserved. -/
structure MoveRecord where
  fromSq : String
  toSq : String
  piece : String
  captured : Option String
  move_number : Int
deriving DecidableEq, Repr

/-- The `Game` aggregate (`Game.__init__`). -/
structure Game where
  grid : Grid
  white_player_id : String
  black_player_id : String
  current_turn : String
  move_history : List MoveRecord
  status : String
  winner : Option String
  castling_rights : CastlingRights
  en_passant_target : Option String
  halfmove_clock : Int
  fullmove_number : Int
deriving DecidableEq, Repr

/-- The result dict returned by `make_move`: failures carry only
`success=False` and a message; successes also carry `captured`,
`is_check` and `status`. -/
inductive MoveResult where
  | fail (message : String)
  | ok (message : String) (captured : Option String) (is_check : Bool)
      (status : String)
deriving DecidableEq, Repr

/-- The `success` field of a `make_move` result dict. -/
def MoveResult.success : MoveResult → Bool
  | .fail _ => false
  | .ok _ _ _ _ => true

/-- The `captured` field of a successful `make_move` result dict
(absent on failures). -/
def MoveResult.capturedField : MoveResult → Option (Option String)
  | .fail _ => none
  | .ok _ c _ _ => some c

/-- Turn flip / winner computation: `'black' if color == 'white' else
'white'` as written at `game.py` lines 99 and 420. -/
def otherColor (color : String) : String :=
  if color = "white" then "black" else "white"

/-! ## Move validators (`game.py`)

The Python validators are mutually recursive through castling:
`_is_valid_move → _is_valid_king_move → _can_castle →
_is_square_attacked → _is_valid_move`.  This recursion is genuinely
unbounded in Python (two kings two files apart on one rank with all
castling rights intact would recurse forever and hit the interpreter's
`RecursionError`); the embedding threads a fuel counter that only
decreases on the `_can_castle` back edge, and returns `false` on
exhaustion.  Fuel exhaustion is unreachable in every state any theorem
below touches. -/

/-- `_is_valid_pawn_move`. -/
def isValidPawnMove (grid : Grid) (ep : Option String)
    (from_sq to_sq color : String) : Bool :=
  let fc := (squareToCoords from_sq).1
  let fr := (squareToCoords from_sq).2
  let tc := (squareToCoords to_sq).1
  let tr := (squareToCoords to_sq).2
  let direction : Int := if color = "white" then 1 else -1
  let start_row : Int := if color = "white" then 1 else 6
  let dest := pyGet grid to_sq
  if fc = tc ∧ tr = fr + direction then dest.isNone
  else if fc = tc ∧ fr = start_row ∧ tr = fr + 2 * direction then
    dest.isNone && (pyGet grid (coordsToSquare fc (fr + direction))).isNone
  else if (tc - fc).natAbs = 1 ∧ tr = fr + direction then
    (match dest with
     | some occ => decide (occ.2 ≠ color)
     | none => false) ||
    decide (some to_sq = ep)
  else false

/-- `_is_valid_knight_move`. -/
def isValidKnightMove (from_sq to_sq : String) : Bool :=
  let fc := (squareToCoords from_sq).1
  let fr := (squareToCoords from_sq).2
  let tc := (squareToCoords to_sq).1
  let tr := (squareToCoords to_sq).2
  KNIGHT_MOVES.contains (tc - fc, tr - fr)

/-- `_is_path_clear`.  The Python `while` walks from the square after
`from_sq` up to (excluding) `to_sq` in unit steps; for the aligned
moves on which it is called this visits exactly the
`max |Δcol| |Δrow| - 1` intermediate squares enumerated here. -/
def isPathClear (grid : Grid) (from_sq to_sq : String) : Bool :=
  let fc := (squareToCoords from_sq).1
  let fr := (squareToCoords from_sq).2
  let tc := (squareToCoords to_sq).1
  let tr := (squareToCoords to_sq).2
  let colStep : Int := if fc = tc then 0 else if tc > fc then 1 else -1
  let rowStep : Int := if fr = tr then 0 else if tr > fr then 1 else -1
  let n := max (tc - fc).natAbs (tr - fr).natAbs
  (List.range (n - 1)).all fun i =>
    (pyGet grid (coordsToSquare (fc + colStep * ((i : Int) + 1))
      (fr + rowStep * ((i : Int) + 1)))).isNone

/-- `_is_valid_bishop_move`. -/
def isValidBishopMove (grid : Grid) (from_sq to_sq : String) : Bool :=
  let fc := (squareToCoords from_sq).1
  let fr := (squareToCoords from_sq).2
  let tc := (squareToCoords to_sq).1
  let tr := (squareToCoords to_sq).2
  let diffCol := (tc - fc).natAbs
  let diffRow := (tr - fr).natAbs
  if diffCol ≠ diffRow ∨ diffCol = 0 then false
  else isPathClear grid from_sq to_sq

/-- `_is_valid_rook_move`. -/
def isValidRookMove (grid : Grid) (from_sq to_sq : String) : Bool :=
  let fc := (squareToCoords from_sq).1
  let fr := (squareToCoords from_sq).2
  let tc := (squareToCoords to_sq).1
  let tr := (squareToCoords to_sq).2
  if fc ≠ tc ∧ fr ≠ tr then false
  else isPathClear grid from_sq to_sq

/-- `_is_valid_queen_move`. -/
def isValidQueenMove (grid : Grid) (from_sq to_sq : String) : Bool :=
  isValidBishopMove grid from_sq to_sq || isValidRookMove grid from_sq to_sq

/-- Python `range(a, b, step)` for `step = 1` or `step = -1`, as a list
of `Int`s. -/
def rangeInt (a b step : Int) : List Int :=
  if step = 1 then (List.range (b - a).toNat).map fun i : Nat => a + (i : Int)
  else (List.range (a - b).toNat).map fun i : Nat => a - (i : Int)

/-- The type of `_is_valid_move` viewed as a parameter: the Python
validators are mutually recursive through castling
(`_is_valid_move → _is_valid_king_move → _can_castle →
_is_square_attacked → _is_valid_move`), and that recursion is genuinely
unbounded in Python (two kings two files apart on one rank with all
castling rights intact would recurse until `RecursionError`).  The
embedding makes each helper a function of the validator it calls back
into, and ties the knot below with a fuel counter that decreases at
each `_is_valid_move` entry, returning `false` on exhaustion — which is
unreachable in every state any theorem here touches. -/
abbrev MoveCheck := Game → String → String → PieceType → String → Bool

/-- `_is_square_attacked`, parameterized by the validator. -/
def isSquareAttackedA (valid : MoveCheck) (g : Game)
    (square by_color : String) : Bool :=
  g.grid.any fun kv =>
    match kv.2 with
    | some occ =>
      decide (occ.2 = by_color) && valid g kv.1 square occ.1 by_color
    | none => false

/-- `is_in_check`, parameterized by the validator: find the first
`(KING, color)` entry in grid iteration order; with no king found it
returns `False`. -/
def isInCheckA (valid : MoveCheck) (g : Game) (color : String) : Bool :=
  match g.grid.find? (fun kv =>
      match kv.2 with
      | some occ => decide (occ.1 = KING) && decide (occ.2 = color)
      | none => false) with
  | none => false
  | some kv =>
    isSquareAttackedA valid g kv.1
      (if color = "white" then "black" else "white")

/-- `_can_castle`, parameterized by the validator. -/
def canCastleA (valid : MoveCheck) (g : Game)
    (from_sq to_sq color : String) : Bool :=
  let fc := (squareToCoords from_sq).1
  let fr := (squareToCoords from_sq).2
  let tc := (squareToCoords to_sq).1
  let rook_col : Int := if tc > fc then 7 else 0
  let rights := rightsFor g.castling_rights color
  if ¬(if tc > fc then rights.kingside else rights.queenside) then false
  else if isInCheckA valid g color then false
  else
    let step : Int := if tc > fc then 1 else -1
    if (rangeInt (fc + step) rook_col step).any
        (fun c => (pyGet g.grid (coordsToSquare c fr)).isSome) then false
    else if (rangeInt fc (tc + step) step).any
        (fun c => isSquareAttackedA valid g (coordsToSquare c fr)
          (if color = "black" then "white" else "black")) then false
    else true

/-- `_is_valid_king_move`, parameterized by the validator. -/
def isValidKingMoveA (valid : MoveCheck) (g : Game)
    (from_sq to_sq color : String) : Bool :=
  let fc := (squareToCoords from_sq).1
  let fr := (squareToCoords from_sq).2
  let tc := (squareToCoords to_sq).1
  let tr := (squareToCoords to_sq).2
  let diffCol := (tc - fc).natAbs
  let diffRow := (tr - fr).natAbs
  if diffCol ≤ 1 ∧ diffRow ≤ 1 then true
  else if diffCol = 2 ∧ diffRow = 0 then canCastleA valid g from_sq to_sq color
  else false

/-- `_is_valid_move` (fuelled).  The two `_square_to_coords` calls at
the top of the source can raise on malformed strings; that is modelled
at `makeMoveE`.  Note the `BISHOP` branch is dead code: `BISHOP` is the
same enum member as `KNIGHT`, so it is caught by the `KNIGHT` test. -/
def isValidMoveF : Nat → Game → String → String → PieceType → String → Bool
  | 0, _, _, _, _, _ => false
  | fuel + 1, g, from_sq, to_sq, piece_type, piece_color =>
    if from_sq = to_sq then false
    else
      let tc := (squareToCoords to_sq).1
      let tr := (squareToCoords to_sq).2
      if ¬(0 ≤ tc ∧ tc < 8 ∧ 0 ≤ tr ∧ tr < 8) then false
      else
        let dest := pyGet g.grid to_sq
        if (match dest with
            | some occ => decide (occ.2 = piece_color)
            | none => false) then false
        else if piece_type = PAWN then
          isValidPawnMove g.grid g.en_passant_target from_sq to_sq piece_color
        else if piece_type = KNIGHT then isValidKnightMove from_sq to_sq
        else if piece_type = BISHOP then isValidBishopMove g.grid from_sq to_sq
        else if piece_type = ROOK then isValidRookMove g.grid from_sq to_sq
        else if piece_type = QUEEN then isValidQueenMove g.grid from_sq to_sq
        else if piece_type = KING then
          isValidKingMoveA (isValidMoveF fuel) g from_sq to_sq piece_color
        else false

/-- `_is_valid_king_move` at a given fuel. -/
def isValidKingMoveF (fuel : Nat) (g : Game)
    (from_sq to_sq color : String) : Bool :=
  isValidKingMoveA (isValidMoveF fuel) g from_sq to_sq color

/-- `_can_castle` at a given fuel. -/
def canCastleF (fuel : Nat) (g : Game) (from_sq to_sq color : String) : Bool :=
  canCastleA (isValidMoveF fuel) g from_sq to_sq color

/-- `_is_square_attacked` at a given fuel. -/
def isSquareAttackedF (fuel : Nat) (g : Game) (square by_color : String) :
    Bool :=
  isSquareAttackedA (isValidMoveF fuel) g square by_color

/-- `is_in_check` at a given fuel. -/
def isInCheckF (fuel : Nat) (g : Game) (color : String) : Bool :=
  isInCheckA (isValidMoveF fuel) g color

/-- Fuel used for all top-level entries into the validator recursion;
far more than any state the theorems exercise can consume. -/
def FUEL : Nat := 100

/-- `_is_valid_move` as entered from `make_move` and `_check_game_over`. -/
def isValidMove (g : Game) (from_sq to_sq : String) (piece_type : PieceType)
    (piece_color : String) : Bool :=
  isValidMoveF FUEL g from_sq to_sq piece_type piece_color

/-- `is_in_check` as called from `make_move` and `_check_game_over`. -/
def isInCheck (g : Game) (color : String) : Bool :=
  isInCheckF FUEL g color

/-! ## Move execution and game-over detection (`game.py`) -/

/-- `_would_be_in_check_after_move`: temporarily applies the move to the
live grid, evaluates check, then writes the two squares back.  The
returned grid is the grid *after* restoration — identical to the input
as a mapping, but when `to_sq` was not a key of the dict the write-back
`grid[to_sq] = None` leaves that key behind with value `None`. -/
def wouldBeInCheckAfterMove (g : Game) (from_sq to_sq color : String) :
    Bool × Grid :=
  let from_piece := pyGet g.grid from_sq
  let to_piece := pyGet g.grid to_sq
  let grid1 := dset (dset g.grid to_sq from_piece) from_sq none
  let in_check := isInCheck { g with grid := grid1 } color
  let grid2 := dset (dset grid1 from_sq from_piece) to_sq to_piece
  (in_check, grid2)

/-- `_execute_move`: applies the move to the grid and updates promotion,
the castling rook, castling rights, the en-passant target and the
halfmove clock.  Returns the captured piece type (the occupant of
`to_sq` before the move) and the updated game. -/
def executeMove (g : Game) (from_sq to_sq : String) (piece_type : PieceType)
    (piece_color : String) (promotion_piece : Option PieceType) :
    Option PieceType × Game :=
  let dest_piece := pyGet g.grid to_sq
  let captured_piece := dest_piece.map (·.1)
  let grid := dset (dset g.grid to_sq (some (piece_type, piece_color)))
    from_sq none
  let tc := (squareToCoords to_sq).1
  let tr := (squareToCoords to_sq).2
  let grid :=
    if piece_type = PAWN ∧
        ((piece_color = "white" ∧ tr = 7) ∨ (piece_color = "black" ∧ tr = 0))
    then dset grid to_sq (some (promotion_piece.getD QUEEN, piece_color))
    else grid
  let fc := (squareToCoords from_sq).1
  let fr := (squareToCoords from_sq).2
  let grid :=
    if piece_type = KING ∧ (tc - fc).natAbs = 2 then
      let rook_from := if tc - fc > 0 then coordsToSquare 7 fr
        else coordsToSquare 0 fr
      let rook_to := if tc - fc > 0 then coordsToSquare 5 fr
        else coordsToSquare 3 fr
      dset (dset grid rook_to (pyGet grid rook_from)) rook_from none
    else grid
  let cr :=
    if piece_type = KING then
      setRights g.castling_rights piece_color ⟨false, false⟩
    else if piece_type = ROOK then
      let old := rightsFor g.castling_rights piece_color
      if fc = 0 then setRights g.castling_rights piece_color
        { old with queenside := false }
      else if fc = 7 then setRights g.castling_rights piece_color
        { old with kingside := false }
      else g.castling_rights
    else g.castling_rights
  let ep :=
    if piece_type = PAWN ∧ (tr - fr).natAbs = 2 then
      some (coordsToSquare fc (Int.fdiv (fr + tr) 2))
    else none
  let clock : Int :=
    if piece_type = PAWN ∨ captured_piece.isSome then 0
    else g.halfmove_clock + 1
  (captured_piece,
    { g with grid := grid, castling_rights := cr, en_passant_target := ep,
             halfmove_clock := clock })

/-- The legal-move scan of `_check_game_over`: some owned piece has a
destination among the grid's keys that is geometrically valid and does
not expose the mover's own king. -/
def hasLegalMove (g : Game) : Bool :=
  g.grid.any fun kv =>
    match kv.2 with
    | some occ =>
      decide (occ.2 = g.current_turn) &&
        g.grid.any fun kv2 =>
          isValidMove g kv.1 kv2.1 occ.1 g.current_turn &&
            !(wouldBeInCheckAfterMove g kv.1 kv2.1 g.current_turn).1
    | none => false

/-- `_check_game_over`: run for `current_turn` after a move has been
applied and the turn flipped.  No legal move means checkmate (winner the
other side) or stalemate; afterwards — and regardless of that outcome —
a halfmove clock of at least 100 forces a draw. -/
def checkGameOver (g : Game) : Game :=
  let g1 :=
    if ¬hasLegalMove g then
      if isInCheck g g.current_turn then
        { g with status := "checkmate", winner := some (otherColor g.current_turn) }
      else
        { g with status := "stalemate" }
    else g
  if g1.halfmove_clock ≥ 100 then { g1 with status := "draw" } else g1

/-- Steps 5–10 of `make_move`, entered once the turn, status, source
piece and color checks have passed and both square strings have parsed:
validity, check-exposure (whose board write-back is kept, see
`wouldBeInCheckAfterMove`), execution, history, turn flip, fullmove
increment, game-over check, and result assembly. -/
def makeMoveValidated (g : Game) (from_sq to_sq : String)
    (piece_type : PieceType) (piece_color : String)
    (promotion_piece : Option PieceType) : MoveResult × Game :=
  if ¬isValidMove g from_sq to_sq piece_type piece_color then
    (.fail "Invalid move", g)
  else if (wouldBeInCheckAfterMove g from_sq to_sq piece_color).1 then
    (.fail "Move would leave king in check",
      { g with grid := (wouldBeInCheckAfterMove g from_sq to_sq piece_color).2 })
  else
    let g0 := { g with
      grid := (wouldBeInCheckAfterMove g from_sq to_sq piece_color).2 }
    let ex := executeMove g0 from_sq to_sq piece_type piece_color
      promotion_piece
      let captured_piece := ex.1
      let g1 := ex.2
      let g2 := { g1 with
        move_history := g1.move_history ++
          [⟨from_sq, to_sq, piece_type.pname,
            captured_piece.map PieceType.pname, g1.fullmove_number⟩],
        current_turn := otherColor g1.current_turn }
      let g3 :=
        if g2.current_turn = "white" then
          { g2 with fullmove_number := g2.fullmove_number + 1 }
        else g2
      let g4 := checkGameOver g3
      (.ok "Move successful" (captured_piece.map PieceType.pname)
        (isInCheck g4 g4.current_turn) g4.status, g4)

/-- `make_move`.  The early rejections return normally; the square
parsing inside `_is_valid_move` (after its `from_sq == to_sq` test,
which precedes any parsing) is where Python raises `IndexError` /
`ValueError` on malformed square strings, modelled with `Except`. -/
def makeMoveE (g : Game) (from_sq to_sq player_id : String)
    (promotion_piece : Option PieceType) :
    Except PyErr (MoveResult × Game) :=
  if (g.current_turn = "white" ∧ player_id ≠ g.white_player_id) ∨
      (g.current_turn = "black" ∧ player_id ≠ g.black_player_id) then
    .ok (.fail "Not your turn", g)
  else if g.status ≠ "ongoing" then
    .ok (.fail ("Game is " ++ g.status), g)
  else
    match pyGet g.grid from_sq with
    | none => .ok (.fail "No piece at source square", g)
    | some occ =>
      if occ.2 ≠ g.current_turn then
        .ok (.fail "Cannot move opponent\x27s piece", g)
      else if from_sq = to_sq then
        .ok (.fail "Invalid move", g)
      else do
        let _ ← squareToCoordsE from_sq
        let _ ← squareToCoordsE to_sq
        .ok (makeMoveValidated g from_sq to_sq occ.1 occ.2 promotion_piece)

/-! ## Board setup (`board.py`) -/

/-- `Board._create_empty_grid`: 64 keys in the order
`a1, a2, …, a8, b1, …, h8`, all mapped to `None`. -/
def createEmptyGrid : Grid :=
  "abcdefgh".data.flatMap fun c =>
    "12345678".data.map fun r =>
      (String.singleton c ++ String.singleton r, (none : Option Occ))

/-- The placement loop of `Board.place_army` over the pawns-first sorted
army: pawns go left-to-right on the second rank, everything else
left-to-right on the remaining back-rank squares; a piece with no
square left is silently dropped. -/
def placeLoop : Grid → List String → List String → List PieceType → String →
    Grid
  | grid, _, _, [], _ => grid
  | grid, r1, r2, p :: rest, color =>
    if p = PAWN then
      match r2 with
      | [] => placeLoop grid r1 r2 rest color
      | sq :: r2' => placeLoop (dset grid sq (some (p, color))) r1 r2' rest color
    else
      match r1 with
      | [] => placeLoop grid r1 r2 rest color
      | sq :: r1' => placeLoop (dset grid sq (some (p, color))) r1' r2 rest color

/-- `Board.place_army`.  The king square is `random.choice` of the back
rank, taken here as a parameter.  Note the king is stored with the
color tag `'W'` / `'B'` while every other piece is stored with
`'white'` / `'black'` — this is the source's own inconsistency,
preserved.  `army.pop(army.index(KING))` removes the first `KING`
(Python raises `ValueError` when there is none; the armies the game
feeds in always contain one), and the sort
`army.sort(key=lambda p: p == PAWN, reverse=True)` is stable, i.e.
pawns first in original order, then the rest in original order. -/
def placeArmy (grid : Grid) (army : List PieceType) (is_white : Bool)
    (king_square : String) : Grid :=
  let rank_1 : String := if is_white then "1" else "8"
  let rank_2 : String := if is_white then "2" else "7"
  let rank_1_squares := "abcdefgh".data.map fun c => String.singleton c ++ rank_1
  let rank_2_squares := "abcdefgh".data.map fun c => String.singleton c ++ rank_2
  let rest := army.erase KING
  let grid := dset grid king_square (some (KING, if is_white then "W" else "B"))
  let rank_1_squares := rank_1_squares.erase king_square
  let sorted := rest.filter (fun p => decide (p = PAWN)) ++
    rest.filter (fun p => !decide (p = PAWN))
  placeLoop grid rank_1_squares rank_2_squares sorted
    (if is_white then "white" else "black")

/-- `Board.setup_board` with the two generated armies and the two random
king squares as parameters. -/
def startedGrid (armyW armyB : List PieceType) (kW kB : String) : Grid :=
  placeArmy (placeArmy createEmptyGrid armyW true kW) armyB false kB

/-- A `Game` immediately after `Game.__init__` + `start_game`. -/
def startedGame (pw pb : String) (armyW armyB : List PieceType)
    (kW kB : String) : Game :=
  { grid := startedGrid armyW armyB kW kB
    white_player_id := pw
    black_player_id := pb
    current_turn := "white"
    move_history := []
    status := "ongoing"
    winner := none
    castling_rights := ⟨⟨true, true⟩, ⟨true, true⟩⟩
    en_passant_target := none
    halfmove_clock := 0
    fullmove_number := 1 }

/-! ## Army generation (`army.py`) -/

/-- `TARGET_POINTS`. -/
def TARGET_POINTS : Int := 39

/-- `MAX_PAWNS`. -/
def MAX_PAWNS : Nat := 8

/-- `MAJOR_PIECES`.  Because `BISHOP` is an alias of `KNIGHT`, this list
is `[QUEEN, ROOK, KNIGHT, KNIGHT]` at the value level, exactly as in
Python. -/
def MAJOR_PIECES : List PieceType := [QUEEN, ROOK, BISHOP, KNIGHT]

/-- The `for piece in MAJOR_PIECES` loop of one attempt of
`generate_random_army`: for each piece kind in the shuffled order, add
`num_to_add` copies (the `random.randint(0, max_possible)` draw, taken
here as the `picks` list) and decrement the remaining budget.  Returns
the accumulated major pieces and the remaining points. -/
def majorsLoop : List PieceType → List Nat → Int → List PieceType × Int
  | [], _, rem => ([], rem)
  | _ :: _, [], rem => ([], rem)
  | p :: ps, n :: ns, rem =>
    let res := majorsLoop ps ns (rem - (n : Int) * (p.value : Int))
    (List.replicate n p ++ res.1, res.2)

/-- The constraint `random.randint(0, max_possible)` guarantees on each
draw: `0 ≤ n ≤ remaining_points // piece.value` at the point of the
draw (`//` is Python floor division, `Int.fdiv`). -/
def validPicks : List PieceType → List Nat → Int → Bool
  | [], [], _ => true
  | p :: ps, n :: ns, rem =>
    decide ((n : Int) ≤ Int.fdiv rem (p.value : Int)) &&
      validPicks ps ns (rem - (n : Int) * (p.value : Int))
  | _, _, _ => false

/-- The army returned by an accepted attempt of `generate_random_army`
(one whose leftover pawn count passes the `num_pawns <= MAX_PAWNS`
test): the drawn major pieces, then `remaining_points` pawns, then the
king.  `remaining_points` is an `int`; `[PAWN] * n` is empty for
negative `n`, hence `Int.toNat`. -/
def generatedArmy (order : List PieceType) (picks : List Nat) :
    List PieceType :=
  (majorsLoop order picks TARGET_POINTS).1 ++
    List.replicate (majorsLoop order picks TARGET_POINTS).2.toNat PAWN ++
    [KING]

/-! ## FEN codec (`fen.py`) -/

/-- `PIECE_TO_FEN`, built by dict insertion exactly as the literal in
the source.  Because `BISHOP` is `KNIGHT`, the insertion of
`BISHOP: 'b'` *overwrites* the `KNIGHT: 'n'` entry: knights (and
"bishops") all serialize as `b`, and no piece serializes as `n`. -/
def PIECE_TO_FEN : List (PieceType × Char) :=
  dset (dset (dset (dset (dset (dset [] PAWN 'p') KNIGHT 'n') BISHOP 'b')
    ROOK 'r') QUEEN 'q') KING 'k'

/-- `FEN_TO_PIECE = {v: k for k, v in PIECE_TO_FEN.items()}`.  In
particular `'n'` is *not* a key of this dict. -/
def FEN_TO_PIECE : List (Char × PieceType) :=
  PIECE_TO_FEN.foldl (fun d kv => dset d kv.2 kv.1) []

/-- One rank of the piece-placement field of `board_to_fen`
(the inner `for col in range(8)` loop with empty-run compression). -/
def fenRowString (grid : Grid) (row : Int) : String :=
  let res := (List.range 8).foldl
    (fun (acc : String × Nat) col =>
      let square := coordsToSquare (col : Int) row
      match pyGet grid square with
      | none => (acc.1, acc.2 + 1)
      | some occ =>
        let acc1 := if acc.2 > 0 then acc.1 ++ toString acc.2 else acc.1
        let piece_char := (dget PIECE_TO_FEN occ.1).getD ' '
        let piece_char := if occ.2 = "white" then piece_char.toUpper
          else piece_char
        (acc1 ++ String.singleton piece_char, 0))
    ("", 0)
  if res.2 > 0 then res.1 ++ toString res.2 else res.1

/-- `board_to_fen`. -/
def boardToFen (grid : Grid) (current_turn : String) (cr : CastlingRights)
    (ep : Option String) (halfmove fullmove : Int) : String :=
  let rows := (List.range 8).map fun i => fenRowString grid (7 - (i : Int))
  let position := String.intercalate "/" rows
  let active := if current_turn = "white" then "w" else "b"
  let castling :=
    (if cr.white.kingside then "K" else "") ++
    (if cr.white.queenside then "Q" else "") ++
    (if cr.black.kingside then "k" else "") ++
    (if cr.black.queenside then "q" else "")
  let castling := if castling = "" then "-" else castling
  let en_passant := ep.getD "-"
  position ++ " " ++ active ++ " " ++ castling ++ " " ++ en_passant ++ " " ++
    toString halfmove ++ " " ++ toString fullmove

/-- The occupants `fen_to_board` stores: `FEN_TO_PIECE.get(piece_char)`
— which is `None` for an unrecognized letter — paired with a color
string.  No error is raised for unknown letters. -/
abbrev FenOcc := Option PieceType × String

/-- The grid dict built by `fen_to_board`. -/
abbrev FenGrid := List (String × Option FenOcc)

/-- The tuple returned by `fen_to_board`. -/
structure FenState where
  grid : FenGrid
  current_turn : String
  castling_rights : CastlingRights
  en_passant_target : Option String
  halfmove_clock : Int
  fullmove_number : Int
deriving DecidableEq, Repr

/-- The 64-key all-`None` grid comprehension at the top of
`fen_to_board` (column-major insertion order). -/
def initialFenGrid : FenGrid :=
  (List.range 8).flatMap fun col =>
    (List.range 8).map fun row =>
      (coordsToSquare (col : Int) (row : Int), (none : Option FenOcc))

/-- The `for char in row_fen` loop of `fen_to_board`: digits advance the
column, letters store `(FEN_TO_PIECE.get(letter), color)` — possibly a
`None` piece — and advance by one. -/
def parseRowChars : FenGrid → Int → Int → List Char → FenGrid
  | grid, _, _, [] => grid
  | grid, row, col, ch :: rest =>
    if ch.isDigit then
      parseRowChars grid row (col + ((ch.toNat : Int) - 48)) rest
    else
      let piece_type := dget FEN_TO_PIECE ch.toLower
      let color := if ch.isUpper then "white" else "black"
      parseRowChars (dset grid (coordsToSquare col row)
        (some (piece_type, color))) row (col + 1) rest

/-- The `for row_idx, row_fen in enumerate(rows)` loop of
`fen_to_board`; `row = 7 - row_idx` may go negative when more than
eight ranks are supplied — no error is raised. -/
def parseRows : FenGrid → Nat → List String → FenGrid
  | grid, _, [] => grid
  | grid, row_idx, rf :: rest =>
    parseRows (parseRowChars grid (7 - (row_idx : Int)) 0 rf.data) (row_idx + 1)
      rest

/-- Helper for `pySplit`: accumulate maximal non-whitespace runs. -/
def splitWhitespaceAux : List Char → List Char → List String
  | [], acc => if acc.isEmpty then [] else [String.mk acc.reverse]
  | c :: rest, acc =>
    if c.isWhitespace then
      if acc.isEmpty then splitWhitespaceAux rest []
      else String.mk acc.reverse :: splitWhitespaceAux rest []
    else splitWhitespaceAux rest (c :: acc)

/-- `fen.split()`: split on whitespace runs, dropping empty pieces
(so `"".split()` is `[]`). -/
def pySplit (s : String) : List String := splitWhitespaceAux s.data []

/-- Helper for `pySplitChar`. -/
def splitCharAux (sep : Char) : List Char → List Char → List String
  | [], acc => [String.mk acc.reverse]
  | c :: rest, acc =>
    if c = sep then String.mk acc.reverse :: splitCharAux sep rest []
    else splitCharAux sep rest (c :: acc)

/-- `s.split(sep)` for a single-character separator, keeping empty
pieces exactly as Python does (`"".split('/')` is `[""]`). -/
def pySplitChar (s : String) (sep : Char) : List String :=
  splitCharAux sep s.data []

/-- `parts[i]`: raises `IndexError` past the end. -/
def pyIndexE {α : Type} (l : List α) (i : Nat) : Except PyErr α :=
  match l.get? i with
  | some a => .ok a
  | none => .error .indexError

/-- A nonempty all-ASCII-digit string folded to a number. -/
def digitsToNat? (cs : List Char) : Option Nat :=
  if cs.isEmpty then none
  else if cs.all (·.isDigit) then
    some (cs.foldl (fun acc c => acc * 10 + (c.toNat - 48)) 0)
  else none

/-- Python `int(s)` on the whitespace-free field strings `fen.split()`
produces: an optional sign followed by decimal digits (exotic forms —
underscore separators, non-ASCII digits — are out of scope). -/
def pyInt? (s : String) : Option Int :=
  match s.data with
  | '-' :: rest => (digitsToNat? rest).map fun n => -(n : Int)
  | '+' :: rest => (digitsToNat? rest).map fun n => (n : Int)
  | cs => (digitsToNat? cs).map fun n => (n : Int)

/-- `int(s)`, raising `ValueError` on a malformed literal. -/
def pyIntE (s : String) : Except PyErr Int :=
  match pyInt? s with
  | some n => .ok n
  | none => .error .valueError

/-- `fen_to_board`.  Field counts of 4 or 5 are accepted with the
defaults `halfmove_clock = 0` / `fullmove_number = 1`; fewer than 4
fields raise `IndexError`; non-numeric clock fields (when present)
raise `ValueError`; the placement field never raises. -/
def fenToBoardE (fen : String) : Except PyErr FenState := do
  let parts := pySplit fen
  let p0 ← pyIndexE parts 0
  let grid := parseRows initialFenGrid 0 (pySplitChar p0 '/')
  let p1 ← pyIndexE parts 1
  let current_turn := if p1 = "w" then "white" else "black"
  let p2 ← pyIndexE parts 2
  let castling_rights : CastlingRights :=
    ⟨⟨p2.data.contains 'K', p2.data.contains 'Q'⟩,
     ⟨p2.data.contains 'k', p2.data.contains 'q'⟩⟩
  let p3 ← pyIndexE parts 3
  let ep := if p3 ≠ "-" then some p3 else none
  let halfmove ← if parts.length > 4 then pyIntE (parts.getD 4 "")
    else pure (0 : Int)
  let fullmove ← if parts.length > 5 then pyIntE (parts.getD 5 "")
    else pure (1 : Int)
  return ⟨grid, current_turn, castling_rights, ep, halfmove, fullmove⟩

/-! ## Army generation lemmas -/

/-- The budget identity of the major-piece loop: the value drawn plus
the leftover equals the starting budget. -/
theorem majorsLoop_sum (order : List PieceType) (picks : List Nat) (rem : Int) :
    (((majorsLoop order picks rem).1.map fun p => (p.value : Int)).sum) +
      (majorsLoop order picks rem).2 = rem := by
  induction order generalizing picks rem with
  | nil => simp [majorsLoop]
  | cons p ps ih =>
    cases picks with
    | nil => simp [majorsLoop]
    | cons n ns =>
      simp only [majorsLoop, List.map_append, List.sum_append]
      have := ih ns (rem - (n : Int) * (p.value : Int))
      simp only [List.map_replicate, List.sum_replicate, nsmul_eq_mul]
      omega

/-- Every major piece drawn is one of the kinds in the shuffled order. -/
theorem majorsLoop_mem {order : List PieceType} {picks : List Nat} {rem : Int}
    {p : PieceType} (h : p ∈ (majorsLoop order picks rem).1) : p ∈ order := by
  induction order generalizing picks rem with
  | nil => simp [majorsLoop] at h
  | cons q qs ih =>
    cases picks with
    | nil => simp [majorsLoop] at h
    | cons n ns =>
      simp only [majorsLoop, List.mem_append] at h
      rcases h with h | h
      · rw [List.eq_of_mem_replicate h]
        exact List.mem_cons_self q qs
      · exact List.mem_cons_of_mem q (ih h)

/-- Under the `randint` bounds, the remaining budget never goes
negative. -/
theorem majorsLoop_nonneg {order : List PieceType} {picks : List Nat}
    {rem : Int} (hval : ∀ p ∈ order, 0 < (p.value : Int))
    (hv : validPicks order picks rem = true) (h0 : 0 ≤ rem) :
    0 ≤ (majorsLoop order picks rem).2 := by
  induction order generalizing picks rem with
  | nil =>
    cases picks with
    | nil => simpa [majorsLoop] using h0
    | cons n ns => simp [validPicks] at hv
  | cons p ps ih =>
    cases picks with
    | nil => simp [validPicks] at hv
    | cons n ns =>
      simp only [validPicks, Bool.and_eq_true, decide_eq_true_eq] at hv
      have hpos : 0 < (p.value : Int) := hval p (List.mem_cons_self p ps)
      have hfd : Int.fdiv rem (p.value : Int) = rem / (p.value : Int) :=
        Int.fdiv_eq_ediv rem (le_of_lt hpos)
      have hmul : (n : Int) * (p.value : Int) ≤ rem := by
        have := hv.1
        rw [hfd] at this
        exact (Int.le_ediv_iff_mul_le hpos).mp this
      have h0' : 0 ≤ rem - (n : Int) * (p.value : Int) := by omega
      have := ih (fun q hq => hval q (List.mem_cons_of_mem p hq)) hv.2 h0'
      simpa [majorsLoop] using this

/-- Every kind in `MAJOR_PIECES` is a queen, rook or knight (recall
`BISHOP` *is* `KNIGHT`), so its value is positive, odd, and at least 3,
and it is neither a pawn nor a king. -/
theorem major_pieces_kinds :
    ∀ p ∈ MAJOR_PIECES, p = QUEEN ∨ p = ROOK ∨ p = KNIGHT := by decide

/-- Value bound and parity for a list of queens/rooks/knights: the
values (9, 5, 3) are all odd and at least 3. -/
theorem majors_sum_bound_parity (L : List PieceType)
    (h : ∀ p ∈ L, p = QUEEN ∨ p = ROOK ∨ p = KNIGHT) :
    3 * L.length ≤ (L.map PieceType.value).sum ∧
      (L.map PieceType.value).sum % 2 = L.length % 2 := by
  induction L with
  | nil => simp
  | cons q qs ih =>
    have hq := h q (List.mem_cons_self q qs)
    have ihq := ih fun p hp => h p (List.mem_cons_of_mem q hp)
    have hval : q.value = 9 ∨ q.value = 5 ∨ q.value = 3 := by
      rcases hq with h1 | h1 | h1 <;> subst h1 <;> simp [PieceType.value]
    simp only [List.map_cons, List.sum_cons, List.length_cons]
    omega

/-- C1: every army returned by `generate_random_army` — i.e. produced
from a shuffled order of `MAJOR_PIECES` by `randint`-bounded draws and
accepted by the `num_pawns <= MAX_PAWNS` test — has non-king point
values summing to exactly 39, at most 8 pawns, and exactly one king. -/
theorem generate_random_army_invariants (order : List PieceType)
    (picks : List Nat) (hperm : order.Perm MAJOR_PIECES)
    (hpicks : validPicks order picks TARGET_POINTS = true)
    (haccept : (majorsLoop order picks TARGET_POINTS).2 ≤ (MAX_PAWNS : Int)) :
    (((generatedArmy order picks).filter fun p => decide (p ≠ KING)).map
      PieceType.value).sum = 39 ∧
    (generatedArmy order picks).count PAWN ≤ 8 ∧
    (generatedArmy order picks).count KING = 1 := by
  have hkinds : ∀ p ∈ order, p = QUEEN ∨ p = ROOK ∨ p = KNIGHT :=
    fun p hp => major_pieces_kinds p (hperm.mem_iff.mp hp)
  have hval : ∀ p ∈ order, 0 < (p.value : Int) := by
    intro p hp
    rcases hkinds p hp with h1 | h1 | h1 <;> subst h1 <;>
      simp [PieceType.value]
  have hrem0 : 0 ≤ (majorsLoop order picks TARGET_POINTS).2 :=
    majorsLoop_nonneg hval hpicks (by norm_num [TARGET_POINTS])
  have hsum := majorsLoop_sum order picks TARGET_POINTS
  set M := (majorsLoop order picks TARGET_POINTS).1 with hM
  set rem := (majorsLoop order picks TARGET_POINTS).2 with hrem
  have hMmem : ∀ p ∈ M, p = QUEEN ∨ p = ROOK ∨ p = KNIGHT :=
    fun p hp => hkinds p (majorsLoop_mem hp)
  have hMnk : ∀ p ∈ M, p ≠ KING := by
    intro p hp
    rcases hMmem p hp with h1 | h1 | h1 <;> subst h1 <;> decide
  have hMnp : ∀ p ∈ M, p ≠ PAWN := by
    intro p hp
    rcases hMmem p hp with h1 | h1 | h1 <;> subst h1 <;> decide
  have hcast : ((M.map PieceType.value).sum : Int) + rem = 39 := by
    rw [Nat.cast_list_sum, List.map_map]
    simpa [Function.comp, TARGET_POINTS] using hsum
  refine ⟨?_, ?_, ?_⟩
  · unfold generatedArmy
    rw [← hM, ← hrem]
    rw [List.filter_append, List.filter_append]
    have h1 : M.filter (fun p => decide (p ≠ KING)) = M :=
      List.filter_eq_self.mpr fun p hp => by
        simpa using hMnk p hp
    have h2 : (List.replicate rem.toNat PAWN).filter
        (fun p => decide (p ≠ KING)) = List.replicate rem.toNat PAWN :=
      List.filter_eq_self.mpr fun p hp => by
        rw [List.eq_of_mem_replicate hp]
        decide
    have h3 : ([KING].filter fun p => decide (p ≠ KING)) = [] := by decide
    rw [h1, h2, h3]
    simp only [List.map_append, List.sum_append, List.map_replicate,
      List.sum_replicate, PieceType.value, List.map_nil, List.sum_nil,
      smul_eq_mul, mul_one, add_zero]
    omega
  · unfold generatedArmy
    rw [← hM, ← hrem]
    rw [List.count_append, List.count_append]
    have h1 : M.count PAWN = 0 := by
      rw [List.count_eq_zero]
      intro hmem
      exact hMnp PAWN hmem rfl
    have h2 : (List.replicate rem.toNat PAWN).count PAWN = rem.toNat :=
      List.count_replicate_self PAWN rem.toNat
    have h3 : ([KING].count PAWN) = 0 := by decide
    have h8 : (MAX_PAWNS : Int) = 8 := by norm_num [MAX_PAWNS]
    rw [h1, h2, h3]
    omega
  · unfold generatedArmy
    rw [← hM, ← hrem]
    rw [List.count_append, List.count_append]
    have h1 : M.count KING = 0 := by
      rw [List.count_eq_zero]
      intro hmem
      exact hMnk KING hmem rfl
    have h2 : (List.replicate rem.toNat PAWN).count KING = 0 := by
      rw [List.count_eq_zero]
      intro hmem
      exact absurd (List.eq_of_mem_replicate hmem) (by decide)
    have h3 : ([KING].count KING) = 1 := by decide
    rw [h1, h2, h3]

/-- C1 witness: the draw order `[QUEEN, ROOK, BISHOP, KNIGHT]` with
picks `[4, 0, 0, 0]` (4 queens, 3 leftover pawns) satisfies every
hypothesis and yields the three invariants. -/
theorem generate_random_army_invariants_witness :
    (((generatedArmy [QUEEN, ROOK, BISHOP, KNIGHT] [4, 0, 0, 0]).filter
      fun p => decide (p ≠ KING)).map PieceType.value).sum = 39 ∧
    (generatedArmy [QUEEN, ROOK, BISHOP, KNIGHT] [4, 0, 0, 0]).count PAWN ≤ 8 ∧
    (generatedArmy [QUEEN, ROOK, BISHOP, KNIGHT] [4, 0, 0, 0]).count KING = 1 :=
  generate_random_army_invariants [QUEEN, ROOK, BISHOP, KNIGHT] [4, 0, 0, 0]
    (List.Perm.refl _) (by decide) (by decide)

/-- C9 counterexample: the attempt that draws 1 rook then 9
knight/bishop pieces (order `[QUEEN, ROOK, BISHOP, KNIGHT]`, picks
`[0, 1, 9, 0]`) satisfies every `randint` bound, passes the pawn-count
acceptance test with 7 leftover pawns, and produces an army of 18
pieces — more than the 16 the claim allows. -/
theorem army_total_16_counterexample :
    [QUEEN, ROOK, BISHOP, KNIGHT].Perm MAJOR_PIECES ∧
    validPicks [QUEEN, ROOK, BISHOP, KNIGHT] [0, 1, 9, 0] TARGET_POINTS =
      true ∧
    (majorsLoop [QUEEN, ROOK, BISHOP, KNIGHT] [0, 1, 9, 0] TARGET_POINTS).2 ≤
      (MAX_PAWNS : Int) ∧
    (generatedArmy [QUEEN, ROOK, BISHOP, KNIGHT] [0, 1, 9, 0]).length = 18 :=
  ⟨List.Perm.refl _, by decide, by decide, by decide⟩

/-- C9 amended: every army the generator can return has at most 18
pieces in total (king included).  The bound is tight by
`army_total_16_counterexample`: the non-king pieces all have odd value,
so their count is odd, and the budget forces it below 19. -/
theorem army_total_le_18 (order : List PieceType) (picks : List Nat)
    (hperm : order.Perm MAJOR_PIECES)
    (hpicks : validPicks order picks TARGET_POINTS = true)
    (haccept : (majorsLoop order picks TARGET_POINTS).2 ≤ (MAX_PAWNS : Int)) :
    (generatedArmy order picks).length ≤ 18 := by
  have hkinds : ∀ p ∈ order, p = QUEEN ∨ p = ROOK ∨ p = KNIGHT :=
    fun p hp => major_pieces_kinds p (hperm.mem_iff.mp hp)
  have hval : ∀ p ∈ order, 0 < (p.value : Int) := by
    intro p hp
    rcases hkinds p hp with h1 | h1 | h1 <;> subst h1 <;>
      simp [PieceType.value]
  have hrem0 : 0 ≤ (majorsLoop order picks TARGET_POINTS).2 :=
    majorsLoop_nonneg hval hpicks (by norm_num [TARGET_POINTS])
  have hsum := majorsLoop_sum order picks TARGET_POINTS
  set M := (majorsLoop order picks TARGET_POINTS).1 with hM
  set rem := (majorsLoop order picks TARGET_POINTS).2 with hrem
  have hMmem : ∀ p ∈ M, p = QUEEN ∨ p = ROOK ∨ p = KNIGHT :=
    fun p hp => hkinds p (majorsLoop_mem hp)
  have hbp := majors_sum_bound_parity M hMmem
  have hcast : ((M.map PieceType.value).sum : Int) + rem = 39 := by
    rw [Nat.cast_list_sum, List.map_map]
    simpa [Function.comp, TARGET_POINTS] using hsum
  have h8 : (MAX_PAWNS : Int) = 8 := by norm_num [MAX_PAWNS]
  have hlen : (generatedArmy order picks).length =
      M.length + rem.toNat + 1 := by
    unfold generatedArmy
    rw [← hM, ← hrem]
    simp [List.length_append]
    omega
  have hml : M.length = (M.map PieceType.value).length := by
    rw [List.length_map]
  rw [hlen]
  omega

/-- C9 amended witness: the 4-queens-3-pawns army stays within 18. -/
theorem army_total_le_18_witness :
    (generatedArmy [QUEEN, ROOK, BISHOP, KNIGHT] [4, 0, 0, 0]).length ≤ 18 :=
  army_total_le_18 [QUEEN, ROOK, BISHOP, KNIGHT] [4, 0, 0, 0]
    (List.Perm.refl _) (by decide) (by decide)

/-! ## C2: game-over detection -/

/-- C2: `_check_game_over`, run for the new side to move after a
successful `make_move`.  If the halfmove clock has reached 100 the
status is `draw`, overriding everything else.  Below 100: when no owned
piece has a geometrically valid destination that does not expose the
own king (the quantified hypothesis is exactly the double scan of the
source), the status becomes `checkmate` with the other side as winner
if the side to move is in check, and `stalemate` otherwise. -/
theorem check_game_over_spec (g : Game) :
    (g.halfmove_clock ≥ 100 → (checkGameOver g).status = "draw") ∧
    (g.halfmove_clock < 100 →
      (∀ kv ∈ g.grid, ∀ occ : Occ, kv.2 = some occ →
        occ.2 = g.current_turn → ∀ kv2 ∈ g.grid,
          ¬(isValidMove g kv.1 kv2.1 occ.1 g.current_turn = true ∧
            (wouldBeInCheckAfterMove g kv.1 kv2.1 g.current_turn).1 = false)) →
      ((isInCheck g g.current_turn = true →
          (checkGameOver g).status = "checkmate" ∧
          (checkGameOver g).winner = some (otherColor g.current_turn)) ∧
       (isInCheck g g.current_turn = false →
          (checkGameOver g).status = "stalemate"))) := by
  constructor
  · intro hclock
    unfold checkGameOver
    by_cases hlm : hasLegalMove g
    · simp [hlm, hclock]
    · by_cases hchk : isInCheck g g.current_turn <;> simp [hlm, hchk, hclock]
  · intro hclock hnomove
    have hlm : hasLegalMove g = false := by
      unfold hasLegalMove
      rw [List.any_eq_false]
      intro kv hkv
      match hocc : kv.2 with
      | none => simp
      | some occ =>
        by_cases hcolor : occ.2 = g.current_turn
        · have hinner : (g.grid.any fun kv2 =>
              isValidMove g kv.1 kv2.1 occ.1 g.current_turn &&
                !(wouldBeInCheckAfterMove g kv.1 kv2.1 g.current_turn).1) =
              false := by
            rw [List.any_eq_false]
            intro kv2 hkv2
            have h := hnomove kv hkv occ hocc hcolor kv2 hkv2
            simp only [Bool.and_eq_true, Bool.not_eq_true', not_and] at h ⊢
            exact h
          simp [hcolor, hinner]
        · simp [hcolor]
    have hn : ¬((100 : Int) ≤ g.halfmove_clock) := by omega
    constructor
    · intro hchk
      unfold checkGameOver
      simp [hlm, hchk, hn]
    · intro hchk
      unfold checkGameOver
      simp [hlm, hchk, hn]

/-- C2 witness: a position with the halfmove clock at 100 is scored as
a draw by `_check_game_over`. -/
def c2DrawGame : Game :=
  { grid := []
    white_player_id := "p1"
    black_player_id := "p2"
    current_turn := "white"
    move_history := []
    status := "ongoing"
    winner := none
    castling_rights := ⟨⟨true, true⟩, ⟨true, true⟩⟩
    en_passant_target := none
    halfmove_clock := 100
    fullmove_number := 60 }

/-- C2 witness theorem. -/
theorem check_game_over_spec_witness : (checkGameOver c2DrawGame).status = "draw" :=
  (check_game_over_spec c2DrawGame).1 (by decide)

/-! ## C6: castling -/

/-- The `return False` cascade of `_can_castle` as a conjunction. -/
theorem castle_guard_iff {b1 b2 b3 b4 : Bool} :
    (if ¬b1 = true then false
     else if b2 = true then false
     else if b3 = true then false
     else if b4 = true then false
     else true) = true ↔
      b1 = true ∧ b2 = false ∧ b3 = false ∧ b4 = false := by
  by_cases h1 : b1 <;> by_cases h2 : b2 <;> by_cases h3 : b3 <;>
    by_cases h4 : b4 <;> simp [h1, h2, h3, h4]

/-- Membership in an upward Python `range`. -/
theorem mem_rangeInt_one {a b c : Int} :
    c ∈ rangeInt a b 1 ↔ a ≤ c ∧ c < b := by
  unfold rangeInt
  rw [if_pos rfl]
  constructor
  · intro hc
    obtain ⟨i, hi, hci⟩ := List.mem_map.1 hc
    rw [List.mem_range] at hi
    omega
  · intro h
    refine List.mem_map.2 ⟨(c - a).toNat, ?_, ?_⟩
    · rw [List.mem_range]
      omega
    · omega

/-- Membership in a downward Python `range` (step `-1`). -/
theorem mem_rangeInt_negone {a b c : Int} :
    c ∈ rangeInt a b (-1) ↔ b < c ∧ c ≤ a := by
  unfold rangeInt
  rw [if_neg (by omega : ¬(-1 : Int) = 1)]
  constructor
  · intro hc
    obtain ⟨i, hi, hci⟩ := List.mem_map.1 hc
    rw [List.mem_range] at hi
    omega
  · intro h
    refine List.mem_map.2 ⟨(a - c).toNat, ?_, ?_⟩
    · rw [List.mem_range]
      omega
    · omega

/-- C6: a two-file, same-rank king move (castling) is accepted by
`_can_castle` exactly when the corresponding castling right for that
color and side is set, the king is not currently in check, every square
strictly between the king and the corner rook square (file 7 kingside,
file 0 queenside) is empty, and no square the king passes through or
lands on — its current and destination files included — is attacked by
the opponent.  In particular an occupied intervening square, an
attacked passed-through or destination square, or a previously cleared
right each force rejection. -/
theorem can_castle_iff (fuel : Nat) (g : Game) (from_sq to_sq color : String)
    (fc fr tc tr : Int)
    (hf : squareToCoords from_sq = (fc, fr))
    (ht : squareToCoords to_sq = (tc, tr))
    (hfb : 0 ≤ fc ∧ fc ≤ 7) (htb : 0 ≤ tc ∧ tc ≤ 7)
    (hdiff : tc = fc + 2 ∨ tc = fc - 2) (_hrank : tr = fr) :
    canCastleF fuel g from_sq to_sq color = true ↔
      ((if tc > fc then (rightsFor g.castling_rights color).kingside
        else (rightsFor g.castling_rights color).queenside) = true ∧
       isInCheckF fuel g color = false ∧
       (∀ c : Int,
          ((fc < c ∧ c < (if tc > fc then (7 : Int) else 0)) ∨
           ((if tc > fc then (7 : Int) else 0) < c ∧ c < fc)) →
          pyGet g.grid (coordsToSquare c fr) = none) ∧
       (∀ c : Int, ((fc ≤ c ∧ c ≤ tc) ∨ (tc ≤ c ∧ c ≤ fc)) →
          isSquareAttackedF fuel g (coordsToSquare c fr)
            (if color = "black" then "white" else "black") = false)) := by
  rcases hdiff with hk | hq
  · have hgt : tc > fc := by omega
    simp only [canCastleF, canCastleA, isInCheckF, isSquareAttackedF, hf, ht, if_pos hgt]
    rw [castle_guard_iff]
    constructor
    · rintro ⟨h1, h2, h3, h4⟩
      rw [List.any_eq_false] at h3 h4
      refine ⟨h1, h2, ?_, ?_⟩
      · intro c hc
        rcases hc with hc | hc
        · have h := h3 c (mem_rangeInt_one.2 ⟨by omega, by omega⟩)
          cases hp : pyGet g.grid (coordsToSquare c fr) with
          | none => rfl
          | some occ => rw [hp] at h; simp at h
        · omega
      · intro c hc
        have h := h4 c (mem_rangeInt_one.2 ⟨by omega, by omega⟩)
        simpa using h
    · rintro ⟨h1, h2, h3, h4⟩
      refine ⟨h1, h2, ?_, ?_⟩
      · rw [List.any_eq_false]
        intro c hc
        rw [mem_rangeInt_one] at hc
        have h := h3 c (Or.inl ⟨by omega, by omega⟩)
        simp [h]
      · rw [List.any_eq_false]
        intro c hc
        rw [mem_rangeInt_one] at hc
        have h := h4 c (Or.inl ⟨by omega, by omega⟩)
        simp [h]
  · have hlt : ¬(tc > fc) := by omega
    simp only [canCastleF, canCastleA, isInCheckF, isSquareAttackedF, hf, ht, if_neg hlt]
    rw [castle_guard_iff]
    constructor
    · rintro ⟨h1, h2, h3, h4⟩
      rw [List.any_eq_false] at h3 h4
      refine ⟨h1, h2, ?_, ?_⟩
      · intro c hc
        rcases hc with hc | hc
        · omega
        · have h := h3 c (mem_rangeInt_negone.2 ⟨by omega, by omega⟩)
          cases hp : pyGet g.grid (coordsToSquare c fr) with
          | none => rfl
          | some occ => rw [hp] at h; simp at h
      · intro c hc
        have h := h4 c (mem_rangeInt_negone.2 ⟨by omega, by omega⟩)
        simpa using h
    · rintro ⟨h1, h2, h3, h4⟩
      refine ⟨h1, h2, ?_, ?_⟩
      · rw [List.any_eq_false]
        intro c hc
        rw [mem_rangeInt_negone] at hc
        have h := h3 c (Or.inr ⟨by omega, by omega⟩)
        simp [h]
      · rw [List.any_eq_false]
        intro c hc
        rw [mem_rangeInt_negone] at hc
        have h := h4 c (Or.inr ⟨by omega, by omega⟩)
        simp [h]

/-- C6 witness game: an empty board with all castling rights intact
(no rook is required to be present for `_can_castle` to succeed). -/
def c6Game : Game :=
  { grid := []
    white_player_id := "p1"
    black_player_id := "p2"
    current_turn := "white"
    move_history := []
    status := "ongoing"
    winner := none
    castling_rights := ⟨⟨true, true⟩, ⟨true, true⟩⟩
    en_passant_target := none
    halfmove_clock := 0
    fullmove_number := 1 }

/-- C6 witness: with the kingside right set, no check, empty files and
no attackers, the move `e1 → g1` castles. -/
theorem can_castle_iff_witness :
    canCastleF 1 c6Game "e1" "g1" "white" = true :=
  (can_castle_iff 1 c6Game "e1" "g1" "white" 4 0 6 0 (by decide) (by decide)
    (by decide) (by decide) (Or.inl (by decide)) (by decide)).2
    ⟨by decide, by decide, fun c hc => rfl, fun c hc => rfl⟩

/-! ## C10: fresh games are never "in check" -/

/-- Occupants written by the placement loop: every entry of the result
is an entry of the input grid or a piece from the army tagged with the
loop's color string. -/
theorem placeLoop_occupants {grid : Grid} {r1 r2 : List String}
    {army : List PieceType} {colorStr : String} {kv : String × Option Occ}
    (h : kv ∈ placeLoop grid r1 r2 army colorStr) :
    kv ∈ grid ∨ ∃ p ∈ army, ∃ sq, kv = (sq, some (p, colorStr)) := by
  induction army generalizing grid r1 r2 with
  | nil => exact Or.inl h
  | cons p rest ih =>
    unfold placeLoop at h
    by_cases hp : p = PAWN
    · rw [if_pos hp] at h
      cases r2 with
      | nil =>
        rcases ih h with h1 | ⟨q, hq, sq, hkv⟩
        · exact Or.inl h1
        · exact Or.inr ⟨q, List.mem_cons_of_mem p hq, sq, hkv⟩
      | cons sq r2' =>
        rcases ih h with h1 | ⟨q, hq, sq', hkv⟩
        · rcases mem_dset h1 with h2 | h2
          · exact Or.inl h2
          · exact Or.inr ⟨p, List.mem_cons_self p rest, sq, h2⟩
        · exact Or.inr ⟨q, List.mem_cons_of_mem p hq, sq', hkv⟩
    · rw [if_neg hp] at h
      cases r1 with
      | nil =>
        rcases ih h with h1 | ⟨q, hq, sq, hkv⟩
        · exact Or.inl h1
        · exact Or.inr ⟨q, List.mem_cons_of_mem p hq, sq, hkv⟩
      | cons sq r1' =>
        rcases ih h with h1 | ⟨q, hq, sq', hkv⟩
        · rcases mem_dset h1 with h2 | h2
          · exact Or.inl h2
          · exact Or.inr ⟨p, List.mem_cons_self p rest, sq, h2⟩
        · exact Or.inr ⟨q, List.mem_cons_of_mem p hq, sq', hkv⟩

/-- Occupants after `place_army`: an old entry, the king tagged
`'W'`/`'B'`, or a non-popped army piece tagged `'white'`/`'black'`. -/
theorem placeArmy_occupants {grid : Grid} {army : List PieceType}
    {is_white : Bool} {king_square : String} {kv : String × Option Occ}
    (h : kv ∈ placeArmy grid army is_white king_square) :
    kv ∈ grid ∨
    kv = (king_square, some (KING, if is_white then "W" else "B")) ∨
    ∃ p ∈ army.erase KING, ∃ sq,
      kv = (sq, some (p, if is_white then "white" else "black")) := by
  unfold placeArmy at h
  rcases placeLoop_occupants h with h1 | ⟨q, hq, sq, hkv⟩
  · rcases mem_dset h1 with h2 | h2
    · exact Or.inl h2
    · exact Or.inr (Or.inl h2)
  · rw [List.mem_append] at hq
    rcases hq with hq | hq
    · exact Or.inr (Or.inr ⟨q, List.mem_of_mem_filter hq, sq, hkv⟩)
    · exact Or.inr (Or.inr ⟨q, List.mem_of_mem_filter hq, sq, hkv⟩)

/-- Entries of the empty grid hold no piece. -/
theorem createEmptyGrid_none {kv : String × Option Occ}
    (h : kv ∈ createEmptyGrid) : kv.2 = none := by
  unfold createEmptyGrid at h
  rw [List.mem_flatMap] at h
  obtain ⟨c, _, hc⟩ := h
  rw [List.mem_map] at hc
  obtain ⟨r, _, hr⟩ := hc
  rw [← hr]

/-- C10: in a game immediately after construction and board setup
(armies each containing exactly one king, as the generator guarantees),
`is_in_check` returns `False` for both colors regardless of the
position: the kings placed by `place_army` carry the color tags `'W'`
and `'B'`, while the king search in `is_in_check` compares against
`'white'` / `'black'`, so no king is ever found. -/
theorem fresh_game_never_in_check (pw pb : String)
    (armyW armyB : List PieceType) (kW kB : String)
    (h1 : armyW.count KING = 1) (h2 : armyB.count KING = 1) :
    isInCheck (startedGame pw pb armyW armyB kW kB) "white" = false ∧
    isInCheck (startedGame pw pb armyW armyB kW kB) "black" = false := by
  have hW : (armyW.erase KING).count KING = 0 := by
    rw [List.count_erase_self, h1]
  have hB : (armyB.erase KING).count KING = 0 := by
    rw [List.count_erase_self, h2]
  have hWk : ∀ p ∈ armyW.erase KING, p ≠ KING := by
    intro p hp hpk
    rw [List.count_eq_zero] at hW
    exact hW (hpk ▸ hp)
  have hBk : ∀ p ∈ armyB.erase KING, p ≠ KING := by
    intro p hp hpk
    rw [List.count_eq_zero] at hB
    exact hB (hpk ▸ hp)
  have hkey : ∀ kv ∈ (startedGame pw pb armyW armyB kW kB).grid,
      ∀ occ : Occ, kv.2 = some occ →
      (occ.2 = "white" ∨ occ.2 = "black") → occ.1 ≠ KING := by
    intro kv hkv occ hocc hcol
    have hgrid : kv ∈ startedGrid armyW armyB kW kB := hkv
    unfold startedGrid at hgrid
    rcases placeArmy_occupants hgrid with h3 | h3 | ⟨q, hq, sq, hkv'⟩
    · rcases placeArmy_occupants h3 with h4 | h4 | ⟨q, hq, sq, hkv'⟩
      · rw [createEmptyGrid_none h4] at hocc
        exact absurd hocc (by simp)
      · rw [h4] at hocc
        simp only [if_pos rfl] at hocc
        injection hocc with hocc
        rw [← hocc] at hcol
        rcases hcol with hcol | hcol <;> exact absurd hcol (by decide)
      · rw [hkv'] at hocc
        injection hocc with hocc
        rw [← hocc]
        exact fun hcon => hWk q hq hcon
    · rw [h3] at hocc
      simp only [if_neg (by decide : ¬(false : Bool) = true)] at hocc
      injection hocc with hocc
      rw [← hocc] at hcol
      rcases hcol with hcol | hcol <;> exact absurd hcol (by decide)
    · rw [hkv'] at hocc
      injection hocc with hocc
      rw [← hocc]
      exact fun hcon => hBk q hq hcon
  have hfind : ∀ color : String, color = "white" ∨ color = "black" →
      ((startedGame pw pb armyW armyB kW kB).grid.find? fun kv =>
        match kv.2 with
        | some occ => decide (occ.1 = KING) && decide (occ.2 = color)
        | none => false) = none := by
    intro color hcolor
    rw [List.find?_eq_none]
    intro kv hkv
    match hocc : kv.2 with
    | none => simp
    | some occ =>
      simp only [Bool.and_eq_true, decide_eq_true_eq, not_and]
      intro hk hc
      rcases hcolor with hc' | hc' <;> rw [hc'] at hc
      · exact hkey kv hkv occ hocc (Or.inl hc) hk
      · exact hkey kv hkv occ hocc (Or.inr hc) hk
  constructor
  · unfold isInCheck isInCheckF isInCheckA
    rw [hfind "white" (Or.inl rfl)]
  · unfold isInCheck isInCheckF isInCheckA
    rw [hfind "black" (Or.inr rfl)]

/-- C10 witness: minimal armies of a lone king each. -/
theorem fresh_game_never_in_check_witness :
    isInCheck (startedGame "p1" "p2" [KING] [KING] "a1" "a8") "white" =
      false ∧
    isInCheck (startedGame "p1" "p2" [KING] [KING] "a1" "a8") "black" =
      false :=
  fresh_game_never_in_check "p1" "p2" [KING] [KING] "a1" "a8" (by decide)
    (by decide)

/-! ## C5: failed moves and engine state -/

/-- The write-back of `_would_be_in_check_after_move` restores every
square's occupant (as read by `.get`). -/
theorem pyGet_restore {β : Type} (d : List (String × Option β))
    (from_sq to_sq : String) (s : String) (hne : from_sq ≠ to_sq) :
    pyGet (dset (dset (dset (dset d to_sq (pyGet d from_sq)) from_sq none)
      from_sq (pyGet d from_sq)) to_sq (pyGet d to_sq)) s = pyGet d s := by
  by_cases hs : s = to_sq
  · subst hs
    rw [pyGet_dset_self]
  · rw [pyGet_dset_ne _ _ _ _ hs]
    by_cases hsf : s = from_sq
    · subst hsf
      rw [pyGet_dset_self]
    · rw [pyGet_dset_ne _ _ _ _ hsf, pyGet_dset_ne _ _ _ _ hsf,
        pyGet_dset_ne _ _ _ _ hs]

/-- C5 amended: whenever `make_move` returns an unsuccessful result,
every engine-state component is preserved, with the board grid
preserved *as a mapping* (every `.get` lookup unchanged); the dict
itself can differ — see `make_move_unchanged_counterexample`. -/
theorem make_move_failure_preserves_state (g : Game)
    (from_sq to_sq player_id : String) (promo : Option PieceType)
    (r : MoveResult) (g' : Game)
    (h : makeMoveE g from_sq to_sq player_id promo = .ok (r, g'))
    (hfail : r.success = false) :
    (∀ s : String, pyGet g'.grid s = pyGet g.grid s) ∧
    g'.white_player_id = g.white_player_id ∧
    g'.black_player_id = g.black_player_id ∧
    g'.current_turn = g.current_turn ∧
    g'.move_history = g.move_history ∧
    g'.status = g.status ∧
    g'.winner = g.winner ∧
    g'.castling_rights = g.castling_rights ∧
    g'.en_passant_target = g.en_passant_target ∧
    g'.halfmove_clock = g.halfmove_clock ∧
    g'.fullmove_number = g.fullmove_number := by
  have hsame : g' = g →
      (∀ s : String, pyGet g'.grid s = pyGet g.grid s) ∧
      g'.white_player_id = g.white_player_id ∧
      g'.black_player_id = g.black_player_id ∧
      g'.current_turn = g.current_turn ∧
      g'.move_history = g.move_history ∧
      g'.status = g.status ∧
      g'.winner = g.winner ∧
      g'.castling_rights = g.castling_rights ∧
      g'.en_passant_target = g.en_passant_target ∧
      g'.halfmove_clock = g.halfmove_clock ∧
      g'.fullmove_number = g.fullmove_number := by
    rintro rfl
    exact ⟨fun s => rfl, rfl, rfl, rfl, rfl, rfl, rfl, rfl, rfl, rfl, rfl⟩
  unfold makeMoveE at h
  split at h
  · injection h with h
    injection h with h1 h2
    exact hsame h2.symm
  · split at h
    · injection h with h
      injection h with h1 h2
      exact hsame h2.symm
    · split at h
      · injection h with h
        injection h with h1 h2
        exact hsame h2.symm
      · rename_i occ hocc
        split at h
        · injection h with h
          injection h with h1 h2
          exact hsame h2.symm
        · split at h
          · injection h with h
            injection h with h1 h2
            exact hsame h2.symm
          · rename_i hne
            cases hf : squareToCoordsE from_sq with
            | error e =>
              rw [hf] at h
              exact Except.noConfusion
                (show (Except.error e : Except PyErr (MoveResult × Game)) =
                  Except.ok (r, g') from h)
            | ok cf =>
              cases ht : squareToCoordsE to_sq with
              | error e =>
                rw [hf, ht] at h
                exact Except.noConfusion
                  (show (Except.error e : Except PyErr (MoveResult × Game)) =
                    Except.ok (r, g') from h)
              | ok ct =>
                rw [hf, ht] at h
                have h' : Except.ok (ε := PyErr)
                    (makeMoveValidated g from_sq to_sq occ.1 occ.2 promo) =
                    Except.ok (r, g') := h
                injection h' with h'
                unfold makeMoveValidated at h'
                split at h'
                · injection h' with h1 h2
                  exact hsame h2.symm
                · split at h'
                  · injection h' with h1 h2
                    subst h2
                    refine ⟨?_, rfl, rfl, rfl, rfl, rfl, rfl, rfl, rfl, rfl,
                      rfl⟩
                    intro s
                    show pyGet (wouldBeInCheckAfterMove g from_sq to_sq
                      occ.2).2 s = pyGet g.grid s
                    unfold wouldBeInCheckAfterMove
                    exact pyGet_restore g.grid from_sq to_sq s hne
                  · injection h' with h1 h2
                    rw [← h1] at hfail
                    exact absurd hfail (by simp [MoveResult.success])

/-- C5 counterexample state: white king a1 shielded from the black rook
a8 by the white rook a3. -/
def c5Game : Game :=
  { grid := dset (dset (dset (dset createEmptyGrid
      "a1" (some (KING, "white"))) "a3" (some (ROOK, "white")))
      "a8" (some (ROOK, "black"))) "h8" (some (KING, "black"))
    white_player_id := "p1"
    black_player_id := "p2"
    current_turn := "white"
    move_history := []
    status := "ongoing"
    winner := none
    castling_rights := ⟨⟨true, true⟩, ⟨true, true⟩⟩
    en_passant_target := none
    halfmove_clock := 0
    fullmove_number := 1 }

/-- C5 counterexample: the move `a3 → "a11"` parses as a rook move to
file a rank 1, is geometrically valid, and is rejected as exposing the
king — but the check simulation's write-back `grid["a11"] = None` adds
the key `"a11"` to the board dict, which therefore is *not* exactly
what it was before the call (the dicts compare unequal; `get_state`
exposes the extra key). -/
theorem make_move_unchanged_counterexample :
    (makeMoveE c5Game "a3" "a11" "p1" none).map (fun p => p.1) =
      .ok (.fail "Move would leave king in check") ∧
    (makeMoveE c5Game "a3" "a11" "p1" none).map
      (fun p => dget p.2.grid "a11") = .ok (some none) ∧
    dget c5Game.grid "a11" = none ∧
    (makeMoveE c5Game "a3" "a11" "p1" none).map
      (fun p => decide (p.2.grid = c5Game.grid)) = .ok false :=
  ⟨by decide, by decide, by decide, by decide⟩

/-- C5 witness state: a lone white king. -/
def c5SmallGame : Game :=
  { grid := [("a1", some (KING, "white"))]
    white_player_id := "p1"
    black_player_id := "p2"
    current_turn := "white"
    move_history := []
    status := "ongoing"
    winner := none
    castling_rights := ⟨⟨true, true⟩, ⟨true, true⟩⟩
    en_passant_target := none
    halfmove_clock := 0
    fullmove_number := 1 }

/-- C5 witness: a rejected null move (`a1 → a1`) leaves the state
intact. -/
theorem make_move_failure_preserves_state_witness :
    pyGet c5SmallGame.grid "a1" = pyGet c5SmallGame.grid "a1" ∧
    c5SmallGame.current_turn = c5SmallGame.current_turn := by
  have h := make_move_failure_preserves_state c5SmallGame "a1" "a1" "p1" none
    (.fail "Invalid move") c5SmallGame (by decide) (by decide)
  exact ⟨h.1 "a1", h.2.2.2.1⟩

/-! ## C7: make_move totality -/

/-- Whether an `Except` result is a normal return. -/
def isOkE {e a : Type} : Except e a → Bool
  | .ok _ => true
  | .error _ => false

/-- C7 amended: `make_move` returns a structured result — it cannot
raise — whenever both square strings parse as file+digit; with a
malformed square string it instead raises once the validation stage is
reached (see `make_move_raises_counterexample`). -/
theorem make_move_total_on_parsable (g : Game)
    (from_sq to_sq player_id : String) (promo : Option PieceType)
    (hf : squareParses from_sq = true) (ht : squareParses to_sq = true) :
    isOkE (makeMoveE g from_sq to_sq player_id promo) = true := by
  unfold makeMoveE
  split
  · rfl
  · split
    · rfl
    · cases hp : pyGet g.grid from_sq with
      | none => rfl
      | some occ =>
        split
        · rfl
        · split
          · rfl
          · rw [squareToCoordsE_ok_of_parses hf,
              squareToCoordsE_ok_of_parses ht]
            split
            · rfl
            · rfl

/-- C7 counterexample state: an ordinary position with a movable white
pawn on e2. -/
def c7Game : Game :=
  { grid := dset (dset (dset createEmptyGrid "a1" (some (KING, "white")))
      "e2" (some (PAWN, "white"))) "h8" (some (KING, "black"))
    white_player_id := "p1"
    black_player_id := "p2"
    current_turn := "white"
    move_history := []
    status := "ongoing"
    winner := none
    castling_rights := ⟨⟨true, true⟩, ⟨true, true⟩⟩
    en_passant_target := none
    halfmove_clock := 0
    fullmove_number := 1 }

/-- C7 counterexample: with a movable piece at the source and an empty
destination string, `make_move` raises `IndexError` (from
`_square_to_coords("")`), instead of returning a structured result. -/
theorem make_move_raises_counterexample :
    makeMoveE c7Game "e2" "" "p1" none = .error .indexError := by decide

/-- C7 amended witness. -/
theorem make_move_total_on_parsable_witness :
    isOkE (makeMoveE c7Game "e2" "e3" "p1" none) = true :=
  make_move_total_on_parsable c7Game "e2" "e3" "p1" none (by decide)
    (by decide)

/-! ## C4: en passant -/

/-- C4 position: black pawn d7 about to double-step past the white
pawn e5; kings far away. -/
def c4Game : Game :=
  { grid := dset (dset (dset (dset createEmptyGrid
      "a1" (some (KING, "white"))) "e5" (some (PAWN, "white")))
      "h8" (some (KING, "black"))) "d7" (some (PAWN, "black"))
    white_player_id := "p1"
    black_player_id := "p2"
    current_turn := "black"
    move_history := []
    status := "ongoing"
    winner := none
    castling_rights := ⟨⟨true, true⟩, ⟨true, true⟩⟩
    en_passant_target := none
    halfmove_clock := 0
    fullmove_number := 1 }

/-- The position after black's double step, for chaining. -/
def c4Step2 : Except PyErr (MoveResult × Game) :=
  (makeMoveE c4Game "d7" "d5" "p2" none).bind fun p1 =>
    makeMoveE p1.2 "e5" "d6" "p1" none

/-- C4: evaluating the code on the en-passant scenario.  Black's
double step `d7 → d5` succeeds and sets the en-passant target to the
intermediate square d6 (the claim's first part).  White's diagonal pawn
move `e5 → d6` onto that target is accepted — but the passed black pawn
is *not* removed: it is still on d5 afterwards, and the move reports no
capture.  `_execute_move` has no en-passant removal branch. -/
theorem en_passant_capture_missing :
    (makeMoveE c4Game "d7" "d5" "p2" none).map (fun p => p.1.success) =
      .ok true ∧
    (makeMoveE c4Game "d7" "d5" "p2" none).map
      (fun p => p.2.en_passant_target) = .ok (some "d6") ∧
    c4Step2.map (fun p => p.1.success) = .ok true ∧
    c4Step2.map (fun p => p.1.capturedField) = .ok (some none) ∧
    c4Step2.map (fun p => pyGet p.2.grid "d5") = .ok (some (PAWN, "black")) ∧
    c4Step2.map (fun p => pyGet p.2.grid "d6") = .ok (some (PAWN, "white")) ∧
    c4Step2.map (fun p => pyGet p.2.grid "e5") = .ok none :=
  ⟨by decide, by decide, by decide, by decide, by decide, by decide,
    by decide⟩

/-! ## C8: FEN decode error handling -/

/-- C8 counterexample: the placement letter `x` is not a recognized
piece letter, yet `fen_to_board` returns a normal result, storing
`(None, 'black')` at h8 (`FEN_TO_PIECE.get` silently yields `None`);
and a 4-field string (malformed field count) is also accepted, with
the clock fields defaulted. -/
theorem fen_decode_accepts_malformed :
    (fenToBoardE "7x/8/8/8/8/8/8/8 w - - 0 1").map
      (fun st => pyGet st.grid "h8") = .ok (some (none, "black")) ∧
    (fenToBoardE "8/8/8/8/8/8/8/8 w - -").map
      (fun st => (st.halfmove_clock, st.fullmove_number)) = .ok (0, 1) :=
  ⟨by decide, by decide⟩

/-- C8 amended: `fen_to_board` raises `IndexError` on fewer than four
whitespace-separated fields and `ValueError` on a non-numeric clock
field when one is present, but silently accepts unknown piece letters
(storing a `None` piece) and 4- or 5-field strings (defaulting the
clocks) — it does not report a distinguished parse error for those. -/
theorem fen_decode_error_cases :
    (∀ fen : String, (pySplit fen).length < 4 →
      isOkE (fenToBoardE fen) = false) ∧
    fenToBoardE "8/8/8/8/8/8/8/8 w - - abc 1" = .error .valueError ∧
    fenToBoardE "8/8/8/8/8/8/8/8 w - - 0 xy" = .error .valueError := by
  refine ⟨?_, by decide, by decide⟩
  intro fen h
  unfold fenToBoardE
  rcases hp : pySplit fen with _ | ⟨a, _ | ⟨b, _ | ⟨c, _ | ⟨d, t⟩⟩⟩⟩
  · rfl
  · rfl
  · rfl
  · rfl
  · rw [hp] at h
    simp at h
    omega

/-- C8 amended witness: a one-field string is rejected. -/
theorem fen_decode_error_cases_witness : isOkE (fenToBoardE "w") = false :=
  fen_decode_error_cases.1 "w" (by decide)

/-! ## C3: FEN round-trip on reachable states -/

/-- A valid generated army (4 queens, 3 pawns, one king). -/
def c3Army : List PieceType :=
  [QUEEN, QUEEN, QUEEN, QUEEN, PAWN, PAWN, PAWN, KING]

/-- A game immediately after `start_game` with that army on both sides
and kings placed on a1 / a8 — a reachable state (zero moves played). -/
def c3Game : Game := startedGame "p1" "p2" c3Army c3Army "a1" "a8"

/-- C3: the FEN round-trip is *not* the identity on this reachable
state.  The white king placed by `place_army` carries the color tag
`'W'`; `board_to_fen` upper-cases only occupants tagged `'white'`, so
the king is emitted as a lowercase `k`, and `fen_to_board` decodes it
as a *black* king.  The original square a1 holds `(KING, 'W')`; the
decoded square a1 holds `(KING, 'black')`. -/
theorem fen_roundtrip_king_tag_bug :
    pyGet c3Game.grid "a1" = some (KING, "W") ∧
    (fenToBoardE (boardToFen c3Game.grid c3Game.current_turn
        c3Game.castling_rights c3Game.en_passant_target
        c3Game.halfmove_clock c3Game.fullmove_number)).map
      (fun st => pyGet st.grid "a1") = .ok (some (some KING, "black")) :=
  ⟨by decide, by decide⟩
